import Mathlib

/-!
Verification development for the connector/credential management layer of the
onyx repository: the IndexAttempt state machine, the CCPair repeated-error
accounting, and the three-phase OAuth authorization flow, together with the
declared response and snapshot shapes.

The type-level declarations (`ValidStatuses`, `ValidSources`,
`IndexAttemptSnapshot`, the OAuth response interfaces,
`federatedSourceToRegularSource`, `oauthSupportedSources`) are translated
directly from the TypeScript source. The behavioral operations of
IndexAttemptTracker and OAuthAuthorizationFlow are not part of the visible
source files (only their declared request/response types are), so they are
modelled from the specification, as marked on each definition.
-/

/-- Translated from the source union type ValidStatuses:
invalid | success | completed_with_errors | canceled | failed |
in_progress | not_started. -/
inductive ValidStatuses where
  | invalid
  | success
  | completed_with_errors
  | canceled
  | failed
  | in_progress
  | not_started
deriving DecidableEq, Fintype

/-- The seven members of the source union type ValidStatuses, in source order. -/
def validStatusesList : List ValidStatuses :=
  [.invalid, .success, .completed_with_errors, .canceled, .failed,
   .in_progress, .not_started]

/-- Translated from the source enum ValidSources (45 members, the last being
the federated family member FederatedSlack). -/
inductive ValidSources where
  | Web
  | GitHub
  | GitLab
  | Slack
  | GoogleDrive
  | Gmail
  | Bookstack
  | Confluence
  | Jira
  | Productboard
  | Slab
  | Notion
  | Guru
  | Gong
  | Zulip
  | Linear
  | Hubspot
  | Document360
  | File
  | GoogleSites
  | Loopio
  | Dropbox
  | Discord
  | Salesforce
  | Sharepoint
  | Teams
  | Zendesk
  | Discourse
  | Axero
  | Clickup
  | Wikipedia
  | Mediawiki
  | Asana
  | S3
  | R2
  | GoogleCloudStorage
  | Xenforo
  | OciStorage
  | NotApplicable
  | IngestionApi
  | Freshdesk
  | Fireflies
  | Egnyte
  | Airtable
  | Gitbook
  | Highspot
  | FederatedSlack
deriving DecidableEq, Fintype

/-- Translated from the source:
if the source is FederatedSlack return Slack, otherwise return the
argument unchanged. -/
def federatedSourceToRegularSource (maybeFederatedSource : ValidSources) :
    ValidSources :=
  if maybeFederatedSource = ValidSources.FederatedSlack then
    ValidSources.Slack
  else
    maybeFederatedSource

/-- Translated from the source: the OAuth-supported sources are Slack and
Confluence (GoogleDrive is commented out in the source). -/
def oauthSupportedSources : List ValidSources :=
  [ValidSources.Slack, ValidSources.Confluence]

/-- Error taxonomy of the specification (section 7). -/
inductive SvcError where
  | ConflictError
  | ValidationError
  | AuthorizationError
  | PermissionError
  | IndexingError
deriving DecidableEq

/-- Translated from the source interface IndexAttemptSnapshot: id, status,
from_beginning, the three document counters, error_msg, error_count,
full_exception_trace, time_started, time_updated. Nullable string fields
become Option, timestamps are modelled as Nat instants. -/
structure IndexAttempt where
  id : Nat
  cc_pair_id : Nat
  status : ValidStatuses
  from_beginning : Bool
  new_docs_indexed : Nat
  docs_removed_from_index : Nat
  total_docs_indexed : Nat
  error_msg : Option String
  error_count : Nat
  full_exception_trace : Option String
  time_started : Option Nat
  time_updated : Nat
deriving DecidableEq

/-- Per-CCPair error accounting: the consecutive-failure counter and the
in_repeated_error_state flag declared on the source interface
ConnectorIndexingStatus. -/
structure CCPairErrorState where
  consecutive_failures : Nat
  in_repeated_error_state : Bool
deriving DecidableEq

/-- State of the IndexAttemptTracker ledger: the attempt records, the
per-CCPair error accounting keyed by cc_pair id, and the next attempt id. -/
structure TrackerState where
  attempts : List IndexAttempt
  pairs : List (Nat × CCPairErrorState)
  nextId : Nat
deriving DecidableEq

/-- The empty tracker ledger. -/
def initTracker : TrackerState :=
  { attempts := [], pairs := [], nextId := 0 }

/-- Statuses that terminate an attempt: success, completed_with_errors,
failed, canceled and invalid; the specification says no transition leaves
any of them. -/
def terminalStatus : ValidStatuses → Bool
  | .success => true
  | .completed_with_errors => true
  | .failed => true
  | .canceled => true
  | .invalid => true
  | .in_progress => false
  | .not_started => false

/-- Modelled from the spec (section 4.2): the transition relation of the
IndexAttempt state machine. not_started may move to in_progress or to
invalid; in_progress may move to each of the four completion outcomes;
nothing else moves. -/
def stepAllowed : ValidStatuses → ValidStatuses → Bool
  | .not_started, .in_progress => true
  | .not_started, .invalid => true
  | .in_progress, .success => true
  | .in_progress, .completed_with_errors => true
  | .in_progress, .failed => true
  | .in_progress, .canceled => true
  | _, _ => false

/-- Outcomes accepted by complete: success, completed_with_errors, failed,
canceled. -/
def completionOutcome (st : ValidStatuses) : Bool :=
  decide (st = .success ∨ st = .completed_with_errors ∨ st = .failed ∨
    st = .canceled)

/-- Boolean test for an in_progress attempt of the given CCPair. -/
def isActiveFor (pid : Nat) (a : IndexAttempt) : Bool :=
  decide (a.cc_pair_id = pid ∧ a.status = ValidStatuses.in_progress)

/-- Whether some attempt of the given CCPair is currently in_progress. -/
def hasInProgress (s : TrackerState) (pid : Nat) : Bool :=
  s.attempts.any (isActiveFor pid)

/-- Number of in_progress attempts of the given CCPair. -/
def inProgressCount (s : TrackerState) (pid : Nat) : Nat :=
  (s.attempts.filter (isActiveFor pid)).length

/-- Look up the error accounting of a CCPair, defaulting to a clean record. -/
def getPair (ps : List (Nat × CCPairErrorState)) (pid : Nat) :
    CCPairErrorState :=
  (ps.lookup pid).getD { consecutive_failures := 0,
                         in_repeated_error_state := false }

/-- Store the error accounting of a CCPair. -/
def setPair (ps : List (Nat × CCPairErrorState)) (pid : Nat)
    (st : CCPairErrorState) : List (Nat × CCPairErrorState) :=
  (pid, st) :: ps.filter (fun e => e.1 != pid)

/-- Error accounting of a CCPair as seen through the tracker state. -/
def pairState (s : TrackerState) (pid : Nat) : CCPairErrorState :=
  getPair s.pairs pid

/-- Default policy threshold for entering in_repeated_error_state: three
consecutive failed or invalid attempts (spec section 4.2). -/
def defaultRepeatedErrorThreshold : Nat := 3

/-- Update the first attempt carrying the given id, leaving the rest alone. -/
def updateAttempt : List IndexAttempt → Nat → (IndexAttempt → IndexAttempt) →
    List IndexAttempt
  | [], _, _ => []
  | a :: rest, aid, f =>
      if a.id == aid then f a :: rest else a :: updateAttempt rest aid f

/-- The attempt record start creates: state in_progress, zeroed counters,
time_started stamped. -/
def freshAttempt (attemptId pid : Nat) (fromBeginning : Bool) (now : Nat) :
    IndexAttempt :=
  { id := attemptId
    cc_pair_id := pid
    status := .in_progress
    from_beginning := fromBeginning
    new_docs_indexed := 0
    docs_removed_from_index := 0
    total_docs_indexed := 0
    error_msg := none
    error_count := 0
    full_exception_trace := none
    time_started := some now
    time_updated := now }

/-- Modelled from the spec (section 4.2): start fails with ConflictError when
an in_progress attempt already exists for the CCPair, and otherwise creates a
fresh attempt in state in_progress recording time_started. Returns the new
attempt id beside the new state. -/
def start (s : TrackerState) (pid : Nat) (fromBeginning : Bool) (now : Nat) :
    Except SvcError (TrackerState × Nat) :=
  if hasInProgress s pid then
    .error .ConflictError
  else
    .ok ({ s with
            attempts := s.attempts ++ [freshAttempt s.nextId pid fromBeginning now]
            nextId := s.nextId + 1 },
         s.nextId)

/-- Modelled from the spec (section 4.2): reportProgress applies additive
updates to an in_progress attempt and is a silently ignored no-op on an
attempt that is already terminal (or unknown). -/
def reportProgress (s : TrackerState) (aid newDocsDelta removedDelta
    totalDocsIndexed : Nat) : TrackerState :=
  { s with
      attempts := updateAttempt s.attempts aid (fun a =>
        if a.status = .in_progress then
          { a with
              new_docs_indexed := a.new_docs_indexed + newDocsDelta
              docs_removed_from_index :=
                a.docs_removed_from_index + removedDelta
              total_docs_indexed := totalDocsIndexed }
        else a) }

/-- The terminal form of an attempt completed with the given outcome: the
status becomes the outcome, the error message is recorded, the exception
trace is kept only on a failed outcome, and time_updated is stamped. -/
def completedAttempt (a : IndexAttempt) (outcome : ValidStatuses)
    (errorMsg : Option String) (trace : Option String) (now : Nat) :
    IndexAttempt :=
  { a with
      status := outcome
      error_msg := errorMsg
      full_exception_trace := if outcome = .failed then trace else none
      time_updated := now }

/-- Per-CCPair error accounting after an attempt completes: a failed outcome
increments the consecutive-failure counter and raises
in_repeated_error_state once the counter reaches the threshold, a success
outcome resets both, other outcomes leave the record alone. -/
def nextPairErrorState (threshold : Nat) (pairBefore : CCPairErrorState)
    (outcome : ValidStatuses) : CCPairErrorState :=
  if outcome = .success then
    { consecutive_failures := 0, in_repeated_error_state := false }
  else if outcome = .failed then
    { consecutive_failures := pairBefore.consecutive_failures + 1,
      in_repeated_error_state :=
        decide (threshold ≤ pairBefore.consecutive_failures + 1) }
  else pairBefore

/-- Modelled from the spec (sections 4.2 and 5): complete moves an
in_progress attempt to the given terminal outcome, requires an error message
for a failed outcome, records the exception trace only on failure, stamps
time_updated, and maintains the per-CCPair consecutive-failure counter: a
failed outcome increments it and raises in_repeated_error_state at the
threshold, a success outcome resets both. A call against an attempt that is
already terminal is a no-op; updates are never merged into a terminal
attempt. -/
def complete (threshold : Nat) (s : TrackerState) (aid : Nat)
    (outcome : ValidStatuses) (errorMsg : Option String)
    (trace : Option String) (now : Nat) : Except SvcError TrackerState :=
  if ¬ completionOutcome outcome then
    .error .ValidationError
  else if outcome = .failed ∧ errorMsg = none then
    .error .ValidationError
  else
    match s.attempts.find? (fun a => a.id == aid) with
    | none => .error .ValidationError
    | some a =>
      if terminalStatus a.status then
        .ok s
      else if a.status = .in_progress then
        .ok { s with
                attempts := updateAttempt s.attempts aid (fun _ =>
                  completedAttempt a outcome errorMsg trace now)
                pairs := setPair s.pairs a.cc_pair_id
                  (nextPairErrorState threshold
                    (getPair s.pairs a.cc_pair_id) outcome) }
      else
        .error .ConflictError

/-- Tracker states reachable from the empty ledger through the three
operations. -/
inductive TrackerReachable : TrackerState → Prop where
  | init : TrackerReachable initTracker
  | step_start {s s1 : TrackerState} {pid : Nat} {fb : Bool} {now aid : Nat} :
      TrackerReachable s → start s pid fb now = .ok (s1, aid) →
      TrackerReachable s1
  | step_report {s : TrackerState} {aid d r t : Nat} :
      TrackerReachable s → TrackerReachable (reportProgress s aid d r t)
  | step_complete {th : Nat} {s s1 : TrackerState} {aid : Nat}
      {outcome : ValidStatuses} {msg tr : Option String} {now : Nat} :
      TrackerReachable s → complete th s aid outcome msg tr now = .ok s1 →
      TrackerReachable s1

/-- Translated from the source interface OAuthPrepareAuthorizationResponse:
a single field url. -/
structure OAuthPrepareAuthorizationResponse where
  url : String
deriving DecidableEq

/-- Field names of OAuthPrepareAuthorizationResponse as declared in the
source. -/
def OAuthPrepareAuthorizationResponse.fieldNames : List String := ["url"]

/-- Translated from the source interface OAuthBaseCallbackResponse: success,
message, nullable finalize_url, and a non-nullable redirect_on_success. -/
structure OAuthBaseCallbackResponse where
  success : Bool
  message : String
  finalize_url : Option String
  redirect_on_success : String
deriving DecidableEq

/-- Field names of OAuthBaseCallbackResponse in source declaration order. -/
def OAuthBaseCallbackResponse.fieldNames : List String :=
  ["success", "message", "finalize_url", "redirect_on_success"]

/-- Translated from the source interface OAuthSlackCallbackResponse, which
extends OAuthBaseCallbackResponse with team_id and authed_user_id. -/
structure OAuthSlackCallbackResponse extends OAuthBaseCallbackResponse where
  team_id : String
  authed_user_id : String
deriving DecidableEq

/-- Field names of OAuthSlackCallbackResponse: the inherited base fields
followed by the two fields the source declaration adds. -/
def OAuthSlackCallbackResponse.fieldNames : List String :=
  OAuthBaseCallbackResponse.fieldNames ++ ["team_id", "authed_user_id"]

/-- Translated from the source interface OAuthConfluenceFinalizeResponse:
success, message, redirect_url. -/
structure OAuthConfluenceFinalizeResponse where
  success : Bool
  message : String
  redirect_url : String
deriving DecidableEq

/-- Modelled from the spec (section 3): the ephemeral OAuth flow state record
keyed by a one-time state token: source, requesting user, expiry instant,
and whether the token has been consumed by a callback. -/
structure StateTokenRecord where
  token : String
  source : ValidSources
  userId : String
  expiresAt : Nat
  consumed : Bool
deriving DecidableEq

/-- Modelled from the spec (section 4.3): the pending FederatedConnector
persisted by a successful callback, holding the accessible resources offered
at callback time for the finalize step. -/
structure PendingConnector where
  id : Nat
  source : ValidSources
  accessible_resources : List String
deriving DecidableEq

/-- Modelled from the spec (section 3): the persisted FederatedConnector.
The record keeps the id of the pending authorization it finalized, its
source, and the selected entities. -/
structure FederatedConnector where
  id : Nat
  source : ValidSources
  entities : List String
deriving DecidableEq

/-- State of the OAuthAuthorizationFlow service: outstanding state tokens,
pending connectors awaiting finalization, persisted federated connectors,
and the next pending id. -/
structure OAuthFlowState where
  tokens : List StateTokenRecord
  pendings : List PendingConnector
  connectors : List FederatedConnector
  nextPendingId : Nat
deriving DecidableEq

/-- The empty OAuth flow state. -/
def initOAuth : OAuthFlowState :=
  { tokens := [], pendings := [], connectors := [], nextPendingId := 0 }

/-- Modelled from the spec: the provider authorization URL embedding the
state token. -/
def authorizationUrl (tok : String) : String :=
  "https://provider.example/oauth/authorize?state=" ++ tok

/-- Modelled from the spec (section 4.3): resource-scoped providers require
the second finalize step; of the supported sources only Confluence does. -/
def sourceRequiresFinalization : ValidSources → Bool
  | .Confluence => true
  | _ => false

/-- Modelled from the spec: the finalize URL returned for a two-phase
source. -/
def finalizeUrlFor (pendingId : Nat) : String :=
  "https://app.example/oauth/finalize?pending=" ++ toString pendingId

/-- Modelled from the spec: the ready-to-use destination returned as
redirect_on_success. -/
def redirectOnSuccessUrl : String := "https://app.example/admin/connectors"

/-- Modelled from the spec (section 4.3 phase 1): prepareAuthorization fails
with ValidationError when the source is not OAuth-supported, and otherwise
records a one-time state token bound to source, user and expiry and returns
the provider authorization URL embedding it. -/
def prepareAuthorization (s : OAuthFlowState) (source : ValidSources)
    (userId : String) (tok : String) (expiresAt : Nat) :
    Except SvcError (OAuthFlowState × OAuthPrepareAuthorizationResponse) :=
  if source ∈ oauthSupportedSources then
    .ok ({ s with
            tokens := s.tokens ++
              [{ token := tok
                 source := source
                 userId := userId
                 expiresAt := expiresAt
                 consumed := false }] },
         { url := authorizationUrl tok })
  else
    .error .ValidationError

/-- Mark the first state token carrying the given token string consumed. -/
def consumeToken : List StateTokenRecord → String → List StateTokenRecord
  | [], _ => []
  | t :: rest, tok =>
      if t.token == tok then { t with consumed := true } :: rest
      else t :: consumeToken rest tok

/-- Modelled from the spec (section 4.3 phase 2): handleCallback validates
the state token, failing with AuthorizationError when it is absent, expired
or already consumed; otherwise it consumes the token atomically, persists a
pending FederatedConnector, and answers with a finalize URL for the sources
that require resource selection or a null finalize URL and the success
redirect for the sources that complete immediately. The provider code
exchange is an external collaborator; the accessible resources it reports
arrive as an argument. -/
def handleCallback (s : OAuthFlowState) (source : ValidSources)
    (code : String) (state : String) (now : Nat)
    (accessibleResources : List String) :
    Except SvcError (OAuthFlowState × OAuthBaseCallbackResponse) :=
  match s.tokens.find? (fun t => t.token == state) with
  | none => .error .AuthorizationError
  | some t =>
    if t.consumed then .error .AuthorizationError
    else if t.expiresAt ≤ now then .error .AuthorizationError
    else
      .ok ({ s with
              tokens := consumeToken s.tokens state
              pendings := s.pendings ++
                [{ id := s.nextPendingId
                   source := source
                   accessible_resources := accessibleResources }]
              nextPendingId := s.nextPendingId + 1 },
           { success := true
             message := "authorization callback accepted"
             finalize_url :=
               if sourceRequiresFinalization source then
                 some (finalizeUrlFor s.nextPendingId)
               else none
             redirect_on_success := redirectOnSuccessUrl })

/-- Number of persisted federated connectors finalized from the given
pending authorization. -/
def connectorCount (s : OAuthFlowState) (pendingId : Nat) : Nat :=
  (s.connectors.filter (fun c => c.id == pendingId)).length

/-- Modelled from the spec (section 4.3 phase 3): finalizeAuthorization
fails with ValidationError when the pending authorization is unknown or the
selection references resources outside the accessible_resources offered at
callback time; otherwise it persists one FederatedConnector for the pending
authorization — or returns without writing when one already exists — and
answers the same response either way, making the call idempotent. -/
def finalizeAuthorization (s : OAuthFlowState) (pendingId : Nat)
    (selectedResources : List String) :
    Except SvcError (OAuthFlowState × OAuthConfluenceFinalizeResponse) :=
  match s.pendings.find? (fun p => p.id == pendingId) with
  | none => .error .ValidationError
  | some p =>
    if ¬ selectedResources.all (fun r => p.accessible_resources.contains r)
    then
      .error .ValidationError
    else
      if s.connectors.any (fun c => c.id == pendingId) then
        .ok (s, { success := true
                  message := "authorization finalized"
                  redirect_url := redirectOnSuccessUrl })
      else
        .ok ({ s with
                connectors := s.connectors ++
                  [{ id := pendingId
                     source := p.source
                     entities := selectedResources }] },
             { success := true
               message := "authorization finalized"
               redirect_url := redirectOnSuccessUrl })

/-! ## Helper lemmas -/

theorem find?_cons_pos {α : Type} (p : α → Bool) (a : α) (l : List α)
    (h : p a = true) : (a :: l).find? p = some a := by
  simp [List.find?, h]

theorem find?_cons_neg {α : Type} (p : α → Bool) (a : α) (l : List α)
    (h : p a = false) : (a :: l).find? p = l.find? p := by
  simp [List.find?, h]

theorem updateAttempt_eq_of_find (l : List IndexAttempt) (aid : Nat)
    (f : IndexAttempt → IndexAttempt) (a : IndexAttempt)
    (hfind : l.find? (fun x => x.id == aid) = some a) (hfa : f a = a) :
    updateAttempt l aid f = l := by
  induction l with
  | nil => simp at hfind
  | cons b rest ih =>
    cases hb : (b.id == aid)
    · rw [find?_cons_neg (fun x => x.id == aid) b rest hb] at hfind
      simp [updateAttempt, hb, ih hfind]
    · rw [find?_cons_pos (fun x => x.id == aid) b rest hb] at hfind
      injection hfind with hba
      subst hba
      simp [updateAttempt, hb, hfa]

theorem mem_updateAttempt {l : List IndexAttempt} {aid : Nat}
    {f : IndexAttempt → IndexAttempt} {b : IndexAttempt}
    (hb : b ∈ updateAttempt l aid f) :
    b ∈ l ∨ ∃ a, a ∈ l ∧ b = f a := by
  induction l with
  | nil => simp [updateAttempt] at hb
  | cons c rest ih =>
    cases hc : (c.id == aid)
    · rw [updateAttempt, if_neg (by simp [hc])] at hb
      rcases List.mem_cons.mp hb with h | h
      · exact Or.inl (h ▸ List.mem_cons_self c rest)
      · rcases ih h with h2 | ⟨a, ha, hba⟩
        · exact Or.inl (List.mem_cons_of_mem c h2)
        · exact Or.inr ⟨a, List.mem_cons_of_mem c ha, hba⟩
    · rw [updateAttempt, if_pos hc] at hb
      rcases List.mem_cons.mp hb with h | h
      · exact Or.inr ⟨c, List.mem_cons_self c rest, h⟩
      · exact Or.inl (List.mem_cons_of_mem c h)

theorem length_filter_updateAttempt_le (l : List IndexAttempt) (aid : Nat)
    (f : IndexAttempt → IndexAttempt) (p : IndexAttempt → Bool)
    (hp : ∀ a, p (f a) = true → p a = true) :
    ((updateAttempt l aid f).filter p).length ≤ (l.filter p).length := by
  induction l with
  | nil => simp [updateAttempt]
  | cons b rest ih =>
    cases hb : (b.id == aid)
    · rw [updateAttempt, if_neg (by simp [hb])]
      simp only [List.filter_cons]
      cases hpb : p b
      · simpa [hpb] using ih
      · simpa [hpb] using Nat.succ_le_succ ih
    · rw [updateAttempt, if_pos hb]
      simp only [List.filter_cons]
      cases hfb : p (f b)
      · cases hpb : p b <;> simp [hfb, hpb, Nat.le_succ]
      · simp [hfb, hp b hfb]

theorem length_filter_updateAttempt_eq (l : List IndexAttempt) (aid : Nat)
    (f : IndexAttempt → IndexAttempt) (p : IndexAttempt → Bool)
    (hp : ∀ a, p (f a) = p a) :
    ((updateAttempt l aid f).filter p).length = (l.filter p).length := by
  induction l with
  | nil => rfl
  | cons b rest ih =>
    cases hb : (b.id == aid)
    · rw [updateAttempt, if_neg (by simp [hb])]
      simp only [List.filter_cons]
      cases hpb : p b <;> simp [hpb, ih]
    · rw [updateAttempt, if_pos hb]
      simp only [List.filter_cons, hp]
      cases hpb : p b <;> simp [hpb]

theorem find?_consumeToken (l : List StateTokenRecord) (tok : String)
    (t : StateTokenRecord)
    (hfind : l.find? (fun x => x.token == tok) = some t) :
    (consumeToken l tok).find? (fun x => x.token == tok) =
      some { t with consumed := true } := by
  induction l with
  | nil => simp at hfind
  | cons b rest ih =>
    cases hb : (b.token == tok)
    · rw [find?_cons_neg (fun x => x.token == tok) b rest hb] at hfind
      rw [consumeToken, if_neg (by simp [hb])]
      rw [find?_cons_neg (fun x => x.token == tok) b _ hb]
      exact ih hfind
    · rw [find?_cons_pos (fun x => x.token == tok) b rest hb] at hfind
      injection hfind with hbt
      subst hbt
      rw [consumeToken, if_pos hb]
      exact find?_cons_pos (fun x => x.token == tok) { b with consumed := true }
        rest hb

theorem inProgressCount_eq_zero_of_not_has {s : TrackerState} {pid : Nat}
    (h : hasInProgress s pid = false) : inProgressCount s pid = 0 := by
  unfold hasInProgress at h
  unfold inProgressCount
  rw [List.filter_eq_nil_iff.mpr (List.any_eq_false.mp h)]
  rfl

theorem getPair_setPair (ps : List (Nat × CCPairErrorState)) (pid : Nat)
    (st : CCPairErrorState) : getPair (setPair ps pid st) pid = st := by
  simp [getPair, setPair, List.lookup]

theorem start_ok_shape {s s1 : TrackerState} {pid : Nat} {fb : Bool}
    {now aid : Nat} (h : start s pid fb now = .ok (s1, aid)) :
    hasInProgress s pid = false ∧ aid = s.nextId ∧
    s1 = { s with
            attempts := s.attempts ++ [freshAttempt s.nextId pid fb now]
            nextId := s.nextId + 1 } := by
  unfold start at h
  cases hg : hasInProgress s pid
  · rw [hg] at h
    simp only [Bool.false_eq_true, if_false, Except.ok.injEq, Prod.mk.injEq] at h
    exact ⟨rfl, h.2.symm, h.1.symm⟩
  · rw [hg] at h
    simp at h

theorem complete_ok_cases {th : Nat} {s s1 : TrackerState} {aid : Nat}
    {outcome : ValidStatuses} {msg tr : Option String} {now : Nat}
    (h : complete th s aid outcome msg tr now = .ok s1) :
    s1 = s ∨
    ∃ a, s.attempts.find? (fun x => x.id == aid) = some a ∧
      a.status = .in_progress ∧ completionOutcome outcome = true ∧
      s1 = { s with
              attempts := updateAttempt s.attempts aid
                (fun _ => completedAttempt a outcome msg tr now)
              pairs := setPair s.pairs a.cc_pair_id
                (nextPairErrorState th (getPair s.pairs a.cc_pair_id)
                  outcome) } := by
  unfold complete at h
  split at h
  · simp at h
  · split at h
    · simp at h
    · split at h
      · simp at h
      · rename_i hco hng hopt a hfind
        split at h
        · simp only [Except.ok.injEq] at h
          exact Or.inl h.symm
        · split at h
          · rename_i hterm hst
            simp only [Except.ok.injEq] at h
            refine Or.inr ⟨a, hfind, hst, ?_, h.symm⟩
            simpa using hco
          · simp at h

theorem outcome_ne_in_progress {outcome : ValidStatuses}
    (h : completionOutcome outcome = true) :
    outcome ≠ ValidStatuses.in_progress := by
  revert h
  cases outcome <;> simp [completionOutcome]

theorem inProgressCount_le_one (s : TrackerState) (hs : TrackerReachable s)
    (p : Nat) : inProgressCount s p ≤ 1 := by
  induction hs with
  | init => simp [inProgressCount, initTracker]
  | @step_start s0 s1 pid fb now aid hr hok ih =>
    obtain ⟨hno, -, hs1⟩ := start_ok_shape hok
    subst hs1
    unfold inProgressCount
    simp only [List.filter_append, List.length_append]
    by_cases hpp : p = pid
    · subst hpp
      have h0 := inProgressCount_eq_zero_of_not_has hno
      unfold inProgressCount at h0
      rw [h0]
      simp [freshAttempt, isActiveFor, List.filter_cons]
    · have hfresh : isActiveFor p (freshAttempt s0.nextId pid fb now) =
        false := by
        simp [freshAttempt, isActiveFor]
        intro hc
        exact absurd hc.symm hpp
      simp only [List.filter_cons, hfresh]
      simpa using ih
  | @step_report s0 aid d r t hr ih =>
    unfold inProgressCount reportProgress
    rw [length_filter_updateAttempt_eq]
    · exact ih
    · intro a
      by_cases ha : a.status = ValidStatuses.in_progress <;>
        simp [isActiveFor, ha]
  | @step_complete th s0 s1 aid outcome msg tr now hr hok ih =>
    rcases complete_ok_cases hok with rfl | ⟨a, hfind, hst, hco, hs1⟩
    · exact ih
    · subst hs1
      unfold inProgressCount
      refine le_trans (length_filter_updateAttempt_le _ _ _ _ ?_) ih
      intro x hx
      exfalso
      simp only [isActiveFor, completedAttempt, decide_eq_true_eq] at hx
      exact outcome_ne_in_progress hco hx.2

/-- The exception-trace invariant: every attempt whose status is not failed
carries no exception trace. -/
def traceInvariant (s : TrackerState) : Prop :=
  ∀ a ∈ s.attempts, a.status ≠ ValidStatuses.failed →
    a.full_exception_trace = none

theorem traceInvariant_reachable (s : TrackerState)
    (hs : TrackerReachable s) : traceInvariant s := by
  induction hs with
  | init => intro a ha; simp [initTracker] at ha
  | @step_start s0 s1 pid fb now aid hr hok ih =>
    obtain ⟨-, -, hs1⟩ := start_ok_shape hok
    subst hs1
    intro a ha hst
    rcases List.mem_append.mp ha with h | h
    · exact ih a h hst
    · simp only [List.mem_singleton] at h
      subst h
      rfl
  | @step_report s0 aid d r t hr ih =>
    intro a ha hst
    simp only [reportProgress] at ha
    rcases mem_updateAttempt ha with h | ⟨b, hb, hab⟩
    · exact ih a h hst
    · subst hab
      by_cases hbst : b.status = ValidStatuses.in_progress <;>
        simp only [hbst, if_true, if_false, reduceIte] <;>
        exact ih b hb (by simpa [hbst] using hst)
  | @step_complete th s0 s1 aid outcome msg tr now hr hok ih =>
    rcases complete_ok_cases hok with rfl | ⟨a0, hfind, hst0, hco, hs1⟩
    · exact ih
    · subst hs1
      intro a ha hst
      rcases mem_updateAttempt ha with h | ⟨b, hb, hab⟩
      · exact ih a h hst
      · subst hab
        by_cases ho : outcome = ValidStatuses.failed
        · exact absurd (by simp [completedAttempt, ho]) hst
        · simp [completedAttempt, ho]

theorem complete_apply (th : Nat) (s : TrackerState) (aid : Nat)
    (a : IndexAttempt) (outcome : ValidStatuses) (msg tr : Option String)
    (now : Nat)
    (hfind : s.attempts.find? (fun x => x.id == aid) = some a)
    (hst : a.status = ValidStatuses.in_progress)
    (hco : completionOutcome outcome = true)
    (hmsg : ¬(outcome = ValidStatuses.failed ∧ msg = none)) :
    complete th s aid outcome msg tr now =
      .ok { s with
              attempts := updateAttempt s.attempts aid
                (fun _ => completedAttempt a outcome msg tr now)
              pairs := setPair s.pairs a.cc_pair_id
                (nextPairErrorState th (getPair s.pairs a.cc_pair_id)
                  outcome) } := by
  unfold complete
  rw [if_neg (by simp [hco]), if_neg hmsg]
  split
  · rename_i heq
    exact absurd (hfind.symm.trans heq) (by simp)
  · rename_i a2 heq
    have ha := Option.some.inj (hfind.symm.trans heq)
    subst ha
    rw [if_neg (by rw [hst]; simp [terminalStatus]), if_pos hst]

/-- Claim C1: for every CCPair at most one IndexAttempt holds status
in_progress at any instant: in every reachable tracker state the count of
in_progress attempts per pair is at most one; start fails with ConflictError
whenever an in_progress attempt already exists for the pair, and otherwise
creates a new attempt in state in_progress; and after one start call
succeeds on a pair, a second start call on the same pair receives
ConflictError, so of two racing start calls exactly one succeeds. -/
theorem start_enforces_single_in_progress (s : TrackerState) (pid : Nat) :
    (TrackerReachable s → ∀ p, inProgressCount s p ≤ 1) ∧
    (hasInProgress s pid = true →
      ∀ fb now, start s pid fb now = .error .ConflictError) ∧
    (hasInProgress s pid = false → ∀ fb now,
      start s pid fb now =
        .ok ({ s with
                attempts := s.attempts ++ [freshAttempt s.nextId pid fb now]
                nextId := s.nextId + 1 }, s.nextId) ∧
      (freshAttempt s.nextId pid fb now).status = .in_progress) ∧
    (∀ fb now s1 aid, start s pid fb now = .ok (s1, aid) →
      ∀ fb2 now2, start s1 pid fb2 now2 = .error .ConflictError) := by
  refine ⟨fun hr p => inProgressCount_le_one s hr p, ?_, ?_, ?_⟩
  · intro h fb now
    unfold start
    rw [h]
    rfl
  · intro h fb now
    unfold start
    rw [h]
    exact ⟨rfl, rfl⟩
  · intro fb now s1 aid hok fb2 now2
    obtain ⟨-, -, hs1⟩ := start_ok_shape hok
    subst hs1
    have hh : hasInProgress
        { s with
            attempts := s.attempts ++ [freshAttempt s.nextId pid fb now]
            nextId := s.nextId + 1 } pid = true := by
      unfold hasInProgress
      simp [List.any_append, isActiveFor, freshAttempt]
    unfold start
    rw [hh]
    rfl

/-- Witness for C1 at the scenario of the spec: on the empty ledger pair 42
has no in_progress attempt, the reachable empty ledger satisfies the
at-most-one bound, and after start(42, fromBeginning true) succeeds an
immediate start(42, fromBeginning false) returns ConflictError. -/
theorem start_enforces_single_in_progress_witness :
    inProgressCount initTracker 42 ≤ 1 ∧
    hasInProgress initTracker 42 = false ∧
    start { initTracker with
              attempts := [freshAttempt 0 42 true 0], nextId := 1 } 42
        false 1 = .error .ConflictError :=
  ⟨(start_enforces_single_in_progress initTracker 42).1 TrackerReachable.init
      42,
   rfl,
   (start_enforces_single_in_progress initTracker 42).2.2.2 true 0
     { initTracker with attempts := [freshAttempt 0 42 true 0], nextId := 1 }
     0 rfl false 1⟩

/-- Claim C2: IndexAttempt status transitions are monotonic: once an attempt
is terminal, a reportProgress call targeting it leaves the whole tracker
state unchanged, and a complete call targeting it either returns the state
unchanged or is rejected with ValidationError — it is never applied, so
neither the status nor the counters of the attempt change. -/
theorem terminal_attempt_frozen (th : Nat) (s : TrackerState) (aid : Nat)
    (a : IndexAttempt) (d r t : Nat) (outcome : ValidStatuses)
    (msg tr : Option String) (now : Nat)
    (hfind : s.attempts.find? (fun x => x.id == aid) = some a)
    (hterm : terminalStatus a.status = true) :
    reportProgress s aid d r t = s ∧
    (complete th s aid outcome msg tr now = .ok s ∨
      complete th s aid outcome msg tr now = .error .ValidationError) := by
  have hnotip : a.status ≠ ValidStatuses.in_progress := by
    intro hc
    rw [hc] at hterm
    simp [terminalStatus] at hterm
  constructor
  · unfold reportProgress
    rw [updateAttempt_eq_of_find s.attempts aid _ a hfind (by simp [hnotip])]
  · by_cases h1 : completionOutcome outcome = true
    · by_cases h2 : outcome = ValidStatuses.failed ∧ msg = none
      · right
        unfold complete
        rw [if_neg (by simp [h1]), if_pos h2]
      · left
        unfold complete
        rw [if_neg (by simp [h1]), if_neg h2]
        split
        · rename_i heq
          exact absurd (hfind.symm.trans heq) (by simp)
        · rename_i a2 heq
          have ha := Option.some.inj (hfind.symm.trans heq)
          subst ha
          rw [if_pos hterm]
    · right
      unfold complete
      rw [if_pos (by simp [h1])]

/-- Concrete terminal attempt for the C2 witness. -/
def terminalExAttempt : IndexAttempt :=
  { id := 7
    cc_pair_id := 42
    status := .success
    from_beginning := false
    new_docs_indexed := 5
    docs_removed_from_index := 0
    total_docs_indexed := 5
    error_msg := none
    error_count := 0
    full_exception_trace := none
    time_started := some 0
    time_updated := 3 }

/-- Concrete tracker state holding one terminal attempt for the C2
witness. -/
def terminalExState : TrackerState :=
  { attempts := [terminalExAttempt], pairs := [], nextId := 8 }

/-- Witness for C2: on a concrete ledger whose only attempt already
succeeded, a late reportProgress is a no-op and a late complete is a no-op
or rejected. -/
theorem terminal_attempt_frozen_witness :
    reportProgress terminalExState 7 1 0 6 = terminalExState ∧
    (complete 3 terminalExState 7 ValidStatuses.failed (some "late") none 9 =
        .ok terminalExState ∨
      complete 3 terminalExState 7 ValidStatuses.failed (some "late") none 9 =
        .error .ValidationError) :=
  terminal_attempt_frozen 3 terminalExState 7 terminalExAttempt 1 0 6
    ValidStatuses.failed (some "late") none 9 rfl rfl

/-- Claim C4: completing an in_progress attempt with outcome failed
increments the consecutive-failure counter of the owning CCPair and the
in_repeated_error_state flag holds exactly when the counter has reached the
configured threshold, whose default is 3; completing with outcome success
resets the counter to zero and clears the flag. -/
theorem repeated_error_threshold_and_reset (th : Nat) (s : TrackerState)
    (aid : Nat) (a : IndexAttempt) (m : String) (tr : Option String)
    (now : Nat)
    (hfind : s.attempts.find? (fun x => x.id == aid) = some a)
    (hst : a.status = ValidStatuses.in_progress) :
    defaultRepeatedErrorThreshold = 3 ∧
    (∃ s1, complete th s aid ValidStatuses.failed (some m) tr now = .ok s1 ∧
      (pairState s1 a.cc_pair_id).consecutive_failures =
        (pairState s a.cc_pair_id).consecutive_failures + 1 ∧
      ((pairState s1 a.cc_pair_id).in_repeated_error_state = true ↔
        th ≤ (pairState s a.cc_pair_id).consecutive_failures + 1)) ∧
    (∃ s2, complete th s aid ValidStatuses.success none tr now = .ok s2 ∧
      pairState s2 a.cc_pair_id =
        { consecutive_failures := 0, in_repeated_error_state := false }) := by
  refine ⟨rfl, ?_, ?_⟩
  · refine ⟨_, complete_apply th s aid a ValidStatuses.failed (some m) tr now
      hfind hst (by decide) (by simp), ?_, ?_⟩
    · unfold pairState
      rw [getPair_setPair]
      simp [nextPairErrorState]
    · unfold pairState
      rw [getPair_setPair]
      simp [nextPairErrorState]
  · refine ⟨_, complete_apply th s aid a ValidStatuses.success none tr now
      hfind hst (by decide) (by simp), ?_⟩
    unfold pairState
    rw [getPair_setPair]
    simp [nextPairErrorState]

/-- Concrete in_progress attempt of pair 42 for the C4 witness. -/
def c4ExAttempt : IndexAttempt := freshAttempt 0 42 true 0

/-- Concrete tracker state for the C4 witness: pair 42 already has two
consecutive failures. -/
def c4ExState : TrackerState :=
  { attempts := [c4ExAttempt]
    pairs := [(42, { consecutive_failures := 2,
                     in_repeated_error_state := false })]
    nextId := 1 }

/-- Witness for C4: completing the third consecutive failure at the default
threshold 3 drives the counter to 3, which reaches the threshold, and a
success completion resets the accounting. -/
theorem repeated_error_threshold_and_reset_witness :
    defaultRepeatedErrorThreshold = 3 ∧
    (∃ s1, complete 3 c4ExState 0 ValidStatuses.failed (some "boom") none 5 =
        .ok s1 ∧
      (pairState s1 c4ExAttempt.cc_pair_id).consecutive_failures =
        (pairState c4ExState c4ExAttempt.cc_pair_id).consecutive_failures
          + 1 ∧
      ((pairState s1 c4ExAttempt.cc_pair_id).in_repeated_error_state = true ↔
        3 ≤ (pairState c4ExState c4ExAttempt.cc_pair_id).consecutive_failures
          + 1)) ∧
    (∃ s2, complete 3 c4ExState 0 ValidStatuses.success none none 5 =
        .ok s2 ∧
      pairState s2 c4ExAttempt.cc_pair_id =
        { consecutive_failures := 0, in_repeated_error_state := false }) :=
  repeated_error_threshold_and_reset 3 c4ExState 0 c4ExAttempt "boom" none 5
    rfl rfl

/-- Claim C9: in every reachable tracker state, every attempt whose status
is not failed carries a null full_exception_trace, and a non-null
full_exception_trace occurs only on an attempt whose status is failed. -/
theorem trace_only_on_failed (s : TrackerState) (hs : TrackerReachable s) :
    ∀ a ∈ s.attempts,
      (a.status ≠ ValidStatuses.failed → a.full_exception_trace = none) ∧
      (a.full_exception_trace ≠ none →
        a.status = ValidStatuses.failed) := by
  intro a ha
  have h := traceInvariant_reachable s hs a ha
  exact ⟨h, fun htr => Classical.byContradiction fun hst => htr (h hst)⟩

/-- Concrete reachable tracker state for the C9 witness. -/
def c9ExState : TrackerState :=
  { initTracker with attempts := [freshAttempt 0 42 true 0], nextId := 1 }

/-- Witness for C9: in the reachable state produced by one start call, the
single attempt is not failed and indeed carries no exception trace. -/
theorem trace_only_on_failed_witness :
    (freshAttempt 0 42 true 0).full_exception_trace = none := by
  have hstep : start initTracker 42 true 0 = .ok (c9ExState, 0) := rfl
  have hr : TrackerReachable c9ExState :=
    TrackerReachable.step_start TrackerReachable.init hstep
  exact (trace_only_on_failed c9ExState hr (freshAttempt 0 42 true 0)
    (by simp [c9ExState, initTracker])).1 (by simp [freshAttempt])

/-- Claim C3: an OAuth state token is consumable exactly once: handleCallback
fails with AuthorizationError when the presented state token is absent,
already consumed, or expired; when the token is present, unconsumed and
unexpired the call succeeds, and every later callback presenting the same
state token fails with AuthorizationError. -/
theorem oauth_state_token_single_use (s : OAuthFlowState)
    (source : ValidSources) (code tok : String) (now : Nat)
    (acc : List String) :
    (s.tokens.find? (fun t => t.token == tok) = none →
      handleCallback s source code tok now acc =
        .error .AuthorizationError) ∧
    (∀ t, s.tokens.find? (fun x => x.token == tok) = some t →
      (t.consumed = true ∨ t.expiresAt ≤ now) →
      handleCallback s source code tok now acc =
        .error .AuthorizationError) ∧
    (∀ t, s.tokens.find? (fun x => x.token == tok) = some t →
      t.consumed = false → now < t.expiresAt →
      ∃ s1 r, handleCallback s source code tok now acc = .ok (s1, r) ∧
        ∀ source2 code2 now2 acc2,
          handleCallback s1 source2 code2 tok now2 acc2 =
            .error .AuthorizationError) := by
  refine ⟨?_, ?_, ?_⟩
  · intro h
    unfold handleCallback
    rw [h]
  · intro t hfind hbad
    unfold handleCallback
    split
    · rfl
    · rename_i t2 heq
      have ht := Option.some.inj (hfind.symm.trans heq)
      subst ht
      rcases hbad with hc | he
      · rw [if_pos hc]
      · cases hc2 : t.consumed
        · rw [if_neg (by simp), if_pos he]
        · rfl
  · intro t hfind hcons hexp
    refine ⟨{ s with
                tokens := consumeToken s.tokens tok
                pendings := s.pendings ++
                  [{ id := s.nextPendingId
                     source := source
                     accessible_resources := acc }]
                nextPendingId := s.nextPendingId + 1 },
            { success := true
              message := "authorization callback accepted"
              finalize_url :=
                if sourceRequiresFinalization source then
                  some (finalizeUrlFor s.nextPendingId)
                else none
              redirect_on_success := redirectOnSuccessUrl }, ?_, ?_⟩
    · unfold handleCallback
      split
      · rename_i heq
        rw [hfind] at heq
        simp at heq
      · rename_i t2 heq
        have ht := Option.some.inj (hfind.symm.trans heq)
        subst ht
        rw [if_neg (by simp [hcons]), if_neg (by omega)]
    · intro source2 code2 now2 acc2
      have hf2 := find?_consumeToken s.tokens tok t hfind
      unfold handleCallback
      split
      · rfl
      · rename_i t2 heq
        have ht := Option.some.inj (hf2.symm.trans heq)
        subst ht
        rw [if_pos rfl]

/-- Concrete unconsumed state token for the C3 witness. -/
def cbExToken : StateTokenRecord :=
  { token := "st1", source := .Slack, userId := "u1", expiresAt := 100,
    consumed := false }

/-- Concrete OAuth flow state holding one live state token. -/
def cbExState : OAuthFlowState :=
  { tokens := [cbExToken], pendings := [], connectors := [],
    nextPendingId := 0 }

/-- The OAuth flow state after the first callback consumes the token. -/
def cbExState1 : OAuthFlowState :=
  { tokens := [{ token := "st1", source := .Slack, userId := "u1",
                 expiresAt := 100, consumed := true }]
    pendings := [{ id := 0, source := .Slack, accessible_resources := [] }]
    connectors := []
    nextPendingId := 1 }

/-- Witness for C3: the concrete token is live, the first callback succeeds,
and replaying the same state against the resulting state fails with
AuthorizationError. -/
theorem oauth_state_token_single_use_witness :
    cbExToken.consumed = false ∧
    handleCallback cbExState1 ValidSources.Slack "c2" "st1" 6 [] =
      .error .AuthorizationError := by
  refine ⟨rfl, ?_⟩
  obtain ⟨s1, r, hok, hreplay⟩ :=
    (oauth_state_token_single_use cbExState ValidSources.Slack "c" "st1" 5
      []).2.2 cbExToken rfl rfl (by decide)
  have hcomp : handleCallback cbExState ValidSources.Slack "c" "st1" 5 [] =
      .ok (cbExState1,
        { success := true
          message := "authorization callback accepted"
          finalize_url := none
          redirect_on_success := redirectOnSuccessUrl }) := rfl
  injection hok.symm.trans hcomp with hpair
  injection hpair with hs1 hr
  rw [← hs1]
  exact hreplay ValidSources.Slack "c2" 6 []

/-- Claim C5: finalizeAuthorization is idempotent: when a call with a given
pendingId and selection succeeds from a state holding at most one connector
for that pending authorization, repeating the call with the same arguments
on the resulting state returns the very same state and an equal response,
and exactly one FederatedConnector for that pending authorization is
persisted. -/
theorem finalize_authorization_idempotent (s : OAuthFlowState)
    (pendingId : Nat) (sel : List String) (s1 : OAuthFlowState)
    (r1 : OAuthConfluenceFinalizeResponse)
    (h : finalizeAuthorization s pendingId sel = .ok (s1, r1))
    (hcnt : connectorCount s pendingId ≤ 1) :
    finalizeAuthorization s1 pendingId sel = .ok (s1, r1) ∧
    connectorCount s1 pendingId = 1 := by
  unfold finalizeAuthorization at h
  split at h
  · simp at h
  · rename_i p heq
    split at h
    · simp at h
    · rename_i hsel
      by_cases hany : s.connectors.any (fun c => c.id == pendingId) = true
      · rw [if_pos hany] at h
        simp only [Except.ok.injEq, Prod.mk.injEq] at h
        obtain ⟨hs1, hr1⟩ := h
        subst hs1
        subst hr1
        have hpos : 1 ≤ (s.connectors.filter
            (fun c => c.id == pendingId)).length := by
          obtain ⟨c, hc, hcp⟩ := List.any_eq_true.mp hany
          have hmem : c ∈ s.connectors.filter (fun c => c.id == pendingId) :=
            List.mem_filter.mpr ⟨hc, hcp⟩
          have := List.length_pos.mpr (List.ne_nil_of_mem hmem)
          omega
        unfold connectorCount at hcnt
        constructor
        · unfold finalizeAuthorization
          split
          · rename_i heq2
            rw [heq] at heq2
            cases heq2
          · rename_i p2 heq2
            have hp := Option.some.inj (heq.symm.trans heq2)
            subst hp
            rw [if_neg hsel, if_pos hany]
        · unfold connectorCount
          omega
      · rw [if_neg hany] at h
        simp only [Except.ok.injEq, Prod.mk.injEq] at h
        obtain ⟨hs1, hr1⟩ := h
        subst hs1
        subst hr1
        have hany2 : (s.connectors ++
            [{ id := pendingId, source := p.source, entities := sel }]
              : List FederatedConnector).any
            (fun c => c.id == pendingId) = true := by
          simp [List.any_append]
        have h0 : (s.connectors.filter
            (fun c => c.id == pendingId)).length = 0 := by
          rw [List.filter_eq_nil_iff.mpr
            (List.any_eq_false.mp (by simpa using hany))]
          rfl
        constructor
        · unfold finalizeAuthorization
          split
          · rename_i heq2
            have heq3 : (some p : Option PendingConnector) = none :=
              heq.symm.trans heq2
            cases heq3
          · rename_i p2 heq2
            have hp := Option.some.inj (heq.symm.trans heq2)
            subst hp
            rw [if_neg hsel, if_pos hany2]
        · show ((s.connectors ++
            [({ id := pendingId, source := p.source, entities := sel }
              : FederatedConnector)]).filter
              (fun c => c.id == pendingId)).length = 1
          rw [List.filter_append _ _, List.length_append, h0]
          simp

/-- Concrete OAuth flow state with one pending Confluence authorization for
the C5 witness. -/
def finExState : OAuthFlowState :=
  { tokens := []
    pendings := [{ id := 0, source := .Confluence,
                   accessible_resources := ["r1", "r2"] }]
    connectors := []
    nextPendingId := 1 }

/-- The OAuth flow state after the first successful finalize call. -/
def finExState1 : OAuthFlowState :=
  { finExState with
      connectors := [{ id := 0, source := .Confluence,
                       entities := ["r1"] }] }

/-- Witness for C5: the second finalize call with the same pendingId and
selection returns the same state and response, and one connector is
persisted. -/
theorem finalize_authorization_idempotent_witness :
    finalizeAuthorization finExState1 0 ["r1"] =
      .ok (finExState1,
        { success := true, message := "authorization finalized",
          redirect_url := redirectOnSuccessUrl }) ∧
    connectorCount finExState1 0 = 1 :=
  finalize_authorization_idempotent finExState 0 ["r1"] finExState1
    { success := true, message := "authorization finalized",
      redirect_url := redirectOnSuccessUrl }
    rfl (by decide)

/-- Claim C6: prepareAuthorization fails with ValidationError for every
source outside the OAuth-supported source set, and for every source in the
set it succeeds, recording the state token and returning a response whose
only field is url. -/
theorem prepare_authorization_source_check (s : OAuthFlowState)
    (source : ValidSources) (userId tok : String) (expiresAt : Nat) :
    (source ∉ oauthSupportedSources →
      prepareAuthorization s source userId tok expiresAt =
        .error .ValidationError) ∧
    (source ∈ oauthSupportedSources →
      prepareAuthorization s source userId tok expiresAt =
        .ok ({ s with
                tokens := s.tokens ++
                  [{ token := tok, source := source, userId := userId,
                     expiresAt := expiresAt, consumed := false }] },
             { url := authorizationUrl tok }) ∧
      (∀ r0 : OAuthPrepareAuthorizationResponse, r0 = { url := r0.url }) ∧
      OAuthPrepareAuthorizationResponse.fieldNames = ["url"]) := by
  constructor
  · intro h
    unfold prepareAuthorization
    rw [if_neg h]
  · intro h
    refine ⟨?_, fun r0 => rfl, rfl⟩
    unfold prepareAuthorization
    rw [if_pos h]

/-- Witness for C6: GitHub is not OAuth-supported and is rejected with
ValidationError; Slack is OAuth-supported and prepare succeeds with a url
response. -/
theorem prepare_authorization_source_check_witness :
    ValidSources.GitHub ∉ oauthSupportedSources ∧
    prepareAuthorization initOAuth ValidSources.GitHub "u1" "st1" 100 =
      .error .ValidationError ∧
    ValidSources.Slack ∈ oauthSupportedSources ∧
    prepareAuthorization initOAuth ValidSources.Slack "u1" "st1" 100 =
      .ok ({ initOAuth with
              tokens := [{ token := "st1", source := ValidSources.Slack,
                           userId := "u1", expiresAt := 100,
                           consumed := false }] },
           { url := authorizationUrl "st1" }) := by
  refine ⟨by decide, ?_, by decide, ?_⟩
  · exact (prepare_authorization_source_check initOAuth ValidSources.GitHub
      "u1" "st1" 100).1 (by decide)
  · exact ((prepare_authorization_source_check initOAuth ValidSources.Slack
      "u1" "st1" 100).2 (by decide)).1

/-- Claim C7: the IndexAttempt status universe is exactly the seven declared
values, and the transition relation allows exactly not_started to
in_progress, not_started to invalid, and in_progress to each of success,
completed_with_errors, failed and canceled — nothing else. -/
theorem status_universe_and_transitions :
    validStatusesList.length = 7 ∧ validStatusesList.Nodup ∧
    (∀ st : ValidStatuses, st ∈ validStatusesList) ∧
    (∀ a b : ValidStatuses, stepAllowed a b = true ↔
      ((a = .not_started ∧ b = .in_progress) ∨
       (a = .not_started ∧ b = .invalid) ∨
       (a = .in_progress ∧ (b = .success ∨ b = .completed_with_errors ∨
         b = .failed ∨ b = .canceled)))) := by
  refine ⟨rfl, by decide, by decide, by decide⟩

/-- Claim C8 counterexample: the source declares OAuthSlackCallbackResponse
extending the base callback response with team_id and authed_user_id, so the
Slack callback response does not carry exactly the four base fields. -/
theorem callback_response_shape_cex :
    OAuthSlackCallbackResponse.fieldNames ≠
      OAuthBaseCallbackResponse.fieldNames := by
  decide

/-- Claim C8 (amended): every handleCallback response carries at least the
four base fields success, message, finalize_url and redirect_on_success,
with finalize_url nullable and redirect_on_success a present non-null
string; the base response carries exactly those four fields, while the
Slack callback response declared in the source additionally carries team_id
and authed_user_id; responses produced by handleCallback always set
redirect_on_success, and finalize_url is null exactly for the sources that
complete without a finalize step. -/
theorem callback_response_shape :
    OAuthBaseCallbackResponse.fieldNames =
      ["success", "message", "finalize_url", "redirect_on_success"] ∧
    OAuthSlackCallbackResponse.fieldNames =
      OAuthBaseCallbackResponse.fieldNames ++ ["team_id", "authed_user_id"] ∧
    (∀ r : OAuthBaseCallbackResponse,
      r = { success := r.success, message := r.message,
            finalize_url := r.finalize_url,
            redirect_on_success := r.redirect_on_success }) ∧
    (∀ s source code tok now acc s1 r,
      handleCallback s source code tok now acc = .ok (s1, r) →
      r.redirect_on_success = redirectOnSuccessUrl ∧
      (r.finalize_url = none ↔
        sourceRequiresFinalization source = false)) := by
  refine ⟨rfl, rfl, fun r => rfl, ?_⟩
  intro s source code tok now acc s1 r h
  unfold handleCallback at h
  split at h
  · simp at h
  · rename_i t heq
    split at h
    · simp at h
    · split at h
      · simp at h
      · simp only [Except.ok.injEq, Prod.mk.injEq] at h
        obtain ⟨-, hr⟩ := h
        subst hr
        constructor
        · rfl
        · cases hreq : sourceRequiresFinalization source <;> simp [hreq]

/-- Witness for C8: the concrete response produced by a Slack callback sets
redirect_on_success and has null finalize_url, Slack being a source that
completes without a finalize step. -/
theorem callback_response_shape_witness :
    ({ success := true, message := "authorization callback accepted",
       finalize_url := none, redirect_on_success := redirectOnSuccessUrl }
      : OAuthBaseCallbackResponse).redirect_on_success =
        redirectOnSuccessUrl ∧
    (({ success := true, message := "authorization callback accepted",
        finalize_url := none, redirect_on_success := redirectOnSuccessUrl }
      : OAuthBaseCallbackResponse).finalize_url = none ↔
        sourceRequiresFinalization ValidSources.Slack = false) :=
  callback_response_shape.2.2.2 cbExState ValidSources.Slack "c" "st1" 5 []
    cbExState1
    { success := true, message := "authorization callback accepted",
      finalize_url := none, redirect_on_success := redirectOnSuccessUrl }
    rfl

/-- Claim C10: federatedSourceToRegularSource never returns a federated
source: it maps FederatedSlack to Slack and every other source to itself,
and is therefore idempotent. -/
theorem federated_source_mapping :
    (∀ s : ValidSources,
      federatedSourceToRegularSource s ≠ ValidSources.FederatedSlack) ∧
    federatedSourceToRegularSource ValidSources.FederatedSlack =
      ValidSources.Slack ∧
    (∀ s : ValidSources, s ≠ ValidSources.FederatedSlack →
      federatedSourceToRegularSource s = s) ∧
    (∀ s : ValidSources,
      federatedSourceToRegularSource (federatedSourceToRegularSource s) =
        federatedSourceToRegularSource s) := by
  refine ⟨by decide, by decide, by decide, by decide⟩

/-- Witness for C10 at GitHub: GitHub is not the federated source and maps
to itself. -/
theorem federated_source_mapping_witness :
    ValidSources.GitHub ≠ ValidSources.FederatedSlack ∧
    federatedSourceToRegularSource ValidSources.GitHub =
      ValidSources.GitHub :=
  ⟨by decide, federated_source_mapping.2.2.1 ValidSources.GitHub (by decide)⟩
